import Mathlib

/-
Verification of the clipzero clipboard-picker core (src/main.rs).

Shallow embedding: the `ClipboardManager` state (history, current_selection,
visible) is a Lean structure; `update` is a pure function from state and
message to new state plus a list of emitted effects.  The clipboard service
(arboard) is modelled as a parameter carrying the outcome of `get_text` and
`set_text`.  The recursive `self.update(...)` calls in the Rust
`Message::EventOccurred` arm only ever dispatch non-EventOccurred messages,
so they are embedded as calls to the shared handler `updateMsg`.
-/

namespace Clipzero

/-- `const MAX_HISTORY: usize = 10;` -/
def MAX_HISTORY : Nat := 10

/-- The key codes the program inspects: `KeyCode::Escape`, `KeyCode::Enter`,
`KeyCode::Key1 ..= Key9, Key0`; every other variant of the iced enum is
collapsed into `OtherKey` (the `_` arm of `key_code_to_number`). -/
inductive KeyCode
  | Escape
  | Enter
  | Key1
  | Key2
  | Key3
  | Key4
  | Key5
  | Key6
  | Key7
  | Key8
  | Key9
  | Key0
  | OtherKey
deriving DecidableEq, Fintype, Repr

/-- `iced::keyboard::Event`: the code matches `KeyEvent::KeyPressed { key_code, .. }`
and treats every other keyboard event (`_ => return Command::none()`) alike. -/
inductive KeyEvent
  | KeyPressed (key_code : KeyCode)
  | OtherKeyboardEvent
deriving DecidableEq, Repr

/-- `iced::Event`: the code matches `iced::Event::Keyboard(key_event)` and falls
through to `Command::none()` for every other event kind. -/
inductive IcedEvent
  | Keyboard (key_event : KeyEvent)
  | NonKeyboard
deriving DecidableEq, Repr

/-- `enum Message` from src/main.rs. -/
inductive Message
  | ShowWindow
  | NumberPressed (num : Nat)
  | ClipboardUpdated (content : String)
  | CheckClipboard
  | ConfirmSelection
  | Hide
  | EventOccurred (event : IcedEvent)
  | ClipboardError (error : String)
deriving DecidableEq, Repr

/-- `iced::window::Mode` values used by the program. -/
inductive WindowMode
  | Windowed
  | Hidden
deriving DecidableEq, Repr

/-- Observable effects of one `update` call: `Command::perform` re-entering the
loop with a message, the window commands, an attempted clipboard write
(`clipboard.set_text`), and the `eprintln!` in the `ClipboardError` arm. -/
inductive Effect
  | perform (m : Message)
  | gainFocus
  | changeMode (mode : WindowMode)
  | writeText (content : String)
  | logError (error : String)
deriving DecidableEq, Repr

/-- `Result` outcome of an arboard clipboard call. -/
inductive ClipResult (α : Type)
  | ok (val : α)
  | err (msg : String)
deriving DecidableEq, Repr

/-- The clipboard service boundary: whether `Clipboard::new().ok()` yielded
`Some`, and the outcomes the service would return for `get_text` / `set_text`
in the current cycle. -/
structure ClipboardService where
  present : Bool
  get_text : ClipResult String
  set_text_result : ClipResult Unit
deriving DecidableEq, Repr

/-- The mutable state of `struct ClipboardManager` (the channel receiver and
the clipboard handle are modelled separately: the handle by
`ClipboardService.present`, the receiver by `decode_funnel_value`). -/
structure ClipboardManager where
  history : List String
  current_selection : Option Nat
  visible : Bool
deriving DecidableEq, Repr

/-- `ClipboardManager::new`: empty history, no selection, not visible. -/
def initState : ClipboardManager :=
  { history := [], current_selection := none, visible := false }

/-- The scan loop of `add_to_history`: find the first entry equal to `content`,
remove it, and report the remaining list; `none` when no entry matches
(`for (i, entry) in self.history.clone().iter().enumerate() { if content == *entry
{ let e = self.history.remove(i); ... } }`). -/
def remove_first_match (history : List String) (content : String) :
    Option (List String) :=
  match history with
  | [] => none
  | entry :: rest =>
    if entry = content then some rest
    else
      match remove_first_match rest content with
      | some l => some (entry :: l)
      | none => none

/-- `ClipboardManager::add_to_history`: promote an existing equal entry to the
front; otherwise evict the back entry when at capacity and push the new
content to the front. -/
def add_to_history (history : List String) (content : String) : List String :=
  match remove_first_match history content with
  | some removed => content :: removed
  | none =>
    let trimmed :=
      if MAX_HISTORY ≤ history.length then history.dropLast else history
    content :: trimmed

/-- `ClipboardManager::check_clipboard`: when a clipboard handle exists, read
text and re-enter the loop with `ClipboardUpdated` on success or
`ClipboardError` on failure; without a handle, `Command::none()`. -/
def check_clipboard (svc : ClipboardService) : List Effect :=
  if svc.present then
    match svc.get_text with
    | ClipResult.ok text => [Effect.perform (Message.ClipboardUpdated text)]
    | ClipResult.err e => [Effect.perform (Message.ClipboardError e)]
  else []

/-- `ClipboardManager::set_clipboard_content`: when a clipboard handle exists,
attempt `set_text`; on failure additionally re-enter the loop with
`ClipboardError`. -/
def set_clipboard_content (svc : ClipboardService) (content : String) :
    List Effect :=
  if svc.present then
    match svc.set_text_result with
    | ClipResult.ok _ => [Effect.writeText content]
    | ClipResult.err e =>
        [Effect.writeText content, Effect.perform (Message.ClipboardError e)]
  else []

/-- `fn key_code_to_number(key_code: KeyCode) -> Option<usize>`. -/
def key_code_to_number (key_code : KeyCode) : Option Nat :=
  match key_code with
  | KeyCode.Key1 => some 0
  | KeyCode.Key2 => some 1
  | KeyCode.Key3 => some 2
  | KeyCode.Key4 => some 3
  | KeyCode.Key5 => some 4
  | KeyCode.Key6 => some 5
  | KeyCode.Key7 => some 6
  | KeyCode.Key8 => some 7
  | KeyCode.Key9 => some 8
  | KeyCode.Key0 => some 9
  | _ => none

/-- The arms of `ClipboardManager::update` for every message except
`EventOccurred`.  The Rust `EventOccurred` arm recursively calls
`self.update` only with `Hide`, `ConfirmSelection` or `NumberPressed`, all
handled here; the vacuous `EventOccurred` arm below is never dispatched to. -/
def updateMsg (svc : ClipboardService) (s : ClipboardManager) (m : Message) :
    ClipboardManager × List Effect :=
  match m with
  | Message.ShowWindow =>
      ({ s with visible := true, current_selection := some 0 },
       check_clipboard svc ++
         [Effect.gainFocus, Effect.changeMode WindowMode.Windowed])
  | Message.CheckClipboard =>
      ({ s with current_selection := some 0 }, check_clipboard svc)
  | Message.Hide =>
      ({ s with visible := false, current_selection := none },
       [Effect.changeMode WindowMode.Hidden])
  | Message.NumberPressed num =>
      (if s.visible then { s with current_selection := some num } else s, [])
  | Message.ClipboardUpdated content =>
      ({ s with history := add_to_history s.history content }, [])
  | Message.ConfirmSelection =>
      match s.current_selection with
      | some index =>
        match s.history[index]? with
        | some content =>
            ({ s with visible := false },
             set_clipboard_content svc content ++
               [Effect.changeMode WindowMode.Hidden])
        | none => (s, [])
      | none => (s, [])
  | Message.EventOccurred _ => (s, [])
  | Message.ClipboardError e => (s, [Effect.logError e])

/-- `ClipboardManager::update`: the `EventOccurred` arm dispatches keyboard
presses (only while visible) to the corresponding message handler, exactly as
the Rust code does via recursive `self.update(...)` calls. -/
def update (svc : ClipboardService) (s : ClipboardManager) (m : Message) :
    ClipboardManager × List Effect :=
  match m with
  | Message.EventOccurred event =>
      match event with
      | IcedEvent.Keyboard key_event =>
        match key_event with
        | KeyEvent.KeyPressed key_code =>
          if s.visible then
            match key_code with
            | KeyCode.Escape => updateMsg svc s Message.Hide
            | KeyCode.Enter => updateMsg svc s Message.ConfirmSelection
            | _ =>
              match key_code_to_number key_code with
              | some num => updateMsg svc s (Message.NumberPressed num)
              | none => (s, [])
          else (s, [])
        | _ => (s, [])
      | _ => (s, [])
  | m => updateMsg svc s m

/-- The funnel consumer in `ClipboardManager::subscription`: a received channel
value of `1` (the clipboard-watcher sentinel) decodes to `CheckClipboard`,
every other value to `ShowWindow`. -/
def decode_funnel_value (value : Nat) : Message :=
  if value = 1 then Message.CheckClipboard else Message.ShowWindow

/-- The value the hotkey producer thread sends (`arctx_event.clone().send(0)`). -/
def hotkey_sent_value : Nat := 0

/-- The value the clipboard-change watcher sends (`self.tx.send(1)`). -/
def watcher_sent_value : Nat := 1

/-- States reachable by the update loop from the initial state, under any
sequence of messages and any per-cycle clipboard-service behavior. -/
inductive Reachable : ClipboardManager → Prop
  | init : Reachable initState
  | step (s : ClipboardManager) (svc : ClipboardService) (m : Message) :
      Reachable s → Reachable (update svc s m).fst

/-- A sequence of `record(c)` calls applied from the empty store. -/
def runRecords (cs : List String) : List String :=
  cs.foldl add_to_history []

/-! ### History store lemmas -/

theorem remove_first_match_eq_none {history : List String} {content : String} :
    remove_first_match history content = none ↔ content ∉ history := by
  induction history with
  | nil => simp [remove_first_match]
  | cons e rest ih =>
    simp only [remove_first_match, List.mem_cons]
    by_cases he : e = content
    · simp [he]
    · rw [if_neg he]
      cases hr : remove_first_match rest content with
      | some l =>
        have hmem : content ∈ rest := by
          by_contra hmem
          exact Option.noConfusion ((ih.2 hmem).symm.trans hr)
        simp [hmem]
      | none =>
        have hnm : content ∉ rest := ih.1 hr
        simp only [eq_self_iff_true, true_iff]
        exact fun hor => hor.elim (fun h1 => he h1.symm) hnm

theorem remove_first_match_eq_some_erase {history : List String}
    {content : String} {removed : List String}
    (h : remove_first_match history content = some removed) :
    removed = history.erase content := by
  induction history generalizing removed with
  | nil => exact Option.noConfusion h
  | cons e rest ih =>
    simp only [remove_first_match] at h
    by_cases he : e = content
    · rw [if_pos he] at h
      injection h with h2
      subst he
      rw [List.erase_cons_head]
      exact h2.symm
    · rw [if_neg he] at h
      cases hr : remove_first_match rest content with
      | some l =>
        rw [hr] at h
        injection h with h2
        have hne : ¬ (e == content) = true := by simpa using he
        rw [← h2, List.erase_cons_tail hne, ih hr]
      | none => rw [hr] at h; exact Option.noConfusion h

theorem remove_first_match_mem {history : List String} {content : String}
    {removed : List String}
    (h : remove_first_match history content = some removed) :
    content ∈ history := by
  by_contra hm
  exact Option.noConfusion ((remove_first_match_eq_none.2 hm).symm.trans h)

theorem remove_first_match_length {history : List String} {content : String}
    {removed : List String}
    (h : remove_first_match history content = some removed) :
    removed.length + 1 = history.length := by
  rw [remove_first_match_eq_some_erase h]
  exact List.length_erase_add_one (remove_first_match_mem h)

theorem add_to_history_length_le (l : List String) (c : String)
    (hlen : l.length ≤ MAX_HISTORY) :
    (add_to_history l c).length ≤ MAX_HISTORY := by
  unfold add_to_history
  cases hr : remove_first_match l c with
  | some removed =>
    have hl := remove_first_match_length hr
    simp only [List.length_cons]
    omega
  | none =>
    by_cases hcap : MAX_HISTORY ≤ l.length
    · simp only [if_pos hcap, List.length_cons, List.length_dropLast]
      simp only [MAX_HISTORY] at *
      omega
    · simp only [if_neg hcap, List.length_cons]
      omega

theorem add_to_history_nodup (l : List String) (c : String) (hnd : l.Nodup) :
    (add_to_history l c).Nodup := by
  unfold add_to_history
  cases hr : remove_first_match l c with
  | some removed =>
    have he := remove_first_match_eq_some_erase hr
    subst he
    exact List.nodup_cons.2
      ⟨fun hm => ((List.Nodup.mem_erase_iff hnd).1 hm).1 rfl, hnd.erase c⟩
  | none =>
    have hcm : c ∉ l := remove_first_match_eq_none.1 hr
    by_cases hcap : MAX_HISTORY ≤ l.length
    · simp only [if_pos hcap]
      exact List.nodup_cons.2
        ⟨fun hm => hcm ((List.dropLast_sublist l).subset hm),
         hnd.sublist (List.dropLast_sublist l)⟩
    · simp only [if_neg hcap]
      exact List.nodup_cons.2 ⟨hcm, hnd⟩

theorem foldl_add_to_history_invariant (cs : List String) :
    ∀ l : List String, l.length ≤ MAX_HISTORY → l.Nodup →
      (cs.foldl add_to_history l).length ≤ MAX_HISTORY ∧
        (cs.foldl add_to_history l).Nodup := by
  induction cs with
  | nil => exact fun l h1 h2 => ⟨h1, h2⟩
  | cons c cs ih =>
    intro l h1 h2
    exact ih _ (add_to_history_length_le l c h1) (add_to_history_nodup l c h2)

/-- Claim C1: for every sequence of `record(c)` calls applied to a History
Store that starts empty, the length of the store never exceeds the capacity
10 and no two stored entries are equal strings. -/
theorem runRecords_bounded_nodup (cs : List String) :
    (runRecords cs).length ≤ MAX_HISTORY ∧ (runRecords cs).Nodup :=
  foldl_add_to_history_invariant cs [] (Nat.zero_le _) List.nodup_nil

/-- Claim C4: recording content that is already present removes its existing
occurrence, reinserts it at the front, and leaves the total length
unchanged. -/
theorem record_present_promotes (l : List String) (c : String) (h : c ∈ l) :
    add_to_history l c = c :: l.erase c ∧
      (add_to_history l c).length = l.length := by
  cases hr : remove_first_match l c with
  | none => exact absurd h (remove_first_match_eq_none.1 hr)
  | some removed =>
    have he := remove_first_match_eq_some_erase hr
    have hlen := remove_first_match_length hr
    unfold add_to_history
    rw [hr, he]
    refine ⟨rfl, ?_⟩
    simp only [List.length_cons]
    rw [← he]
    omega

/-- Witness for C4: the scenario from the spec, history `["alpha", "beta"]`
with alpha most recent, then `record("beta")`. -/
theorem record_present_promotes_witness :
    add_to_history ["alpha", "beta"] "beta" = ["beta", "alpha"] ∧
      (add_to_history ["alpha", "beta"] "beta").length = 2 := by
  have h := record_present_promotes ["alpha", "beta"] "beta" (by decide)
  exact ⟨h.1.trans (by decide), h.2⟩

/-- Claim C5: recording new content into a store holding exactly 10 entries
evicts the oldest (back) entry, inserts the new content at the front, and the
length stays 10. -/
theorem record_full_evicts (l : List String) (c : String)
    (hlen : l.length = MAX_HISTORY) (hm : c ∉ l) :
    add_to_history l c = c :: l.dropLast ∧
      (add_to_history l c).length = MAX_HISTORY := by
  have hr := remove_first_match_eq_none.2 hm
  have hcap : MAX_HISTORY ≤ l.length := le_of_eq hlen.symm
  have h1 : add_to_history l c = c :: l.dropLast := by
    unfold add_to_history
    rw [hr]
    simp only [if_pos hcap]
  refine ⟨h1, ?_⟩
  rw [h1]
  simp only [List.length_cons, List.length_dropLast, hlen]
  rfl

/-- Witness for C5: a concrete full store of ten entries plus fresh content. -/
theorem record_full_evicts_witness :
    add_to_history ["a", "b", "c", "d", "e", "f", "g", "h", "i", "j"] "new" =
        ["new", "a", "b", "c", "d", "e", "f", "g", "h", "i"] ∧
      (add_to_history ["a", "b", "c", "d", "e", "f", "g", "h", "i", "j"]
          "new").length = MAX_HISTORY := by
  have h := record_full_evicts ["a", "b", "c", "d", "e", "f", "g", "h", "i", "j"]
    "new" rfl (by decide)
  exact ⟨h.1.trans (by decide), h.2⟩

/-! ### State machine: concrete fixtures -/

/-- A service whose `Clipboard::new().ok()` returned `None`: reads and writes
are never attempted. -/
def svcAbsent : ClipboardService :=
  { present := false, get_text := ClipResult.ok "",
    set_text_result := ClipResult.ok () }

/-- A service whose handle exists but whose read and write calls both fail in
the current cycle. -/
def svcFailing : ClipboardService :=
  { present := true, get_text := ClipResult.err "read failed",
    set_text_result := ClipResult.err "write failed" }

/-- A visible picker over a two-entry history with slot 0 selected. -/
def sampleVisible : ClipboardManager :=
  { history := ["x", "y"], current_selection := some 0, visible := true }

/-- The state reached from the initial state by one ShowRequested token when
the clipboard handle is absent: visible, selection 0, empty history. -/
def visibleEmptyState : ClipboardManager :=
  (update svcAbsent initState Message.ShowWindow).fst

/-! ### State machine theorems -/

/-- Claim C2, amended: a `ClipboardChanged` token (`Message.CheckClipboard`)
keeps visibility and history unchanged but resets the selection to `some 0`
unconditionally, whether or not the picker is visible; consequently the
selection can be `some` while the picker is hidden. -/
theorem checkClipboard_resets_selection_unconditionally
    (svc : ClipboardService) (s : ClipboardManager) :
    (update svc s Message.CheckClipboard).fst.visible = s.visible ∧
      (update svc s Message.CheckClipboard).fst.current_selection = some 0 ∧
      (update svc s Message.CheckClipboard).fst.history = s.history :=
  ⟨rfl, rfl, rfl⟩

/-- Counterexample to claim C2 as stated: a single `ClipboardChanged` token
received in the initial (hidden) state yields a reachable state whose
selection is `some 0` while `visible` is `false`. -/
theorem checkClipboard_hidden_selection_cex :
    Reachable (update svcAbsent initState Message.CheckClipboard).fst ∧
      (update svcAbsent initState Message.CheckClipboard).fst.visible = false ∧
      (update svcAbsent initState
          Message.CheckClipboard).fst.current_selection = some 0 :=
  ⟨Reachable.step initState svcAbsent Message.CheckClipboard Reachable.init,
   rfl, rfl⟩

/-- Claim C3, amended: from `Visible(i)` with `history.get(i)` absent,
pressing Enter performs no Clipboard Service write and leaves the state
entirely unchanged; in particular the picker stays visible instead of
transitioning to `Hidden`. -/
theorem enter_out_of_range_no_write
    (svc : ClipboardService) (s : ClipboardManager) (i : Nat)
    (hv : s.visible = true) (hsel : s.current_selection = some i)
    (hget : s.history[i]? = none) :
    update svc s
        (Message.EventOccurred (IcedEvent.Keyboard
          (KeyEvent.KeyPressed KeyCode.Enter))) = (s, []) := by
  simp [update, updateMsg, hv, hsel, hget]

/-- Witness for C3 (amended): Visible(0) over an empty history. -/
theorem enter_out_of_range_no_write_witness :
    update svcAbsent visibleEmptyState
        (Message.EventOccurred (IcedEvent.Keyboard
          (KeyEvent.KeyPressed KeyCode.Enter))) = (visibleEmptyState, []) :=
  enter_out_of_range_no_write svcAbsent visibleEmptyState 0 rfl rfl rfl

/-- Counterexample to claim C3 as stated: in the reachable state Visible(0)
with empty history, Enter does not transition the picker to Hidden, the
visibility stays `true`. -/
theorem enter_out_of_range_cex :
    Reachable visibleEmptyState ∧
      visibleEmptyState.visible = true ∧
      visibleEmptyState.current_selection = some 0 ∧
      visibleEmptyState.history[0]? = none ∧
      ¬ (update svcAbsent visibleEmptyState
          (Message.EventOccurred (IcedEvent.Keyboard
            (KeyEvent.KeyPressed KeyCode.Enter)))).fst.visible = false :=
  ⟨Reachable.step initState svcAbsent Message.ShowWindow Reachable.init,
   rfl, rfl, rfl, by decide⟩

/-- Claim C6: the digit-to-index mapping is a total bijection from the ten
digit keys onto the indices 0 through 9 (key 1 to 0, ..., key 9 to 8, key 0
to 9), independent of the history length; pressing a digit key while visible
moves the selection to the mapped index. -/
theorem digit_mapping_bijection
    (svc : ClipboardService) (s : ClipboardManager) (kc : KeyCode) (n : Nat)
    (hv : s.visible = true) (hmap : key_code_to_number kc = some n) :
    ((∀ m : Nat, m < 10 → ∃ k : KeyCode, key_code_to_number k = some m ∧
        ∀ k2 : KeyCode, key_code_to_number k2 = some m → k2 = k) ∧
      key_code_to_number KeyCode.Key1 = some 0 ∧
      key_code_to_number KeyCode.Key2 = some 1 ∧
      key_code_to_number KeyCode.Key3 = some 2 ∧
      key_code_to_number KeyCode.Key4 = some 3 ∧
      key_code_to_number KeyCode.Key5 = some 4 ∧
      key_code_to_number KeyCode.Key6 = some 5 ∧
      key_code_to_number KeyCode.Key7 = some 6 ∧
      key_code_to_number KeyCode.Key8 = some 7 ∧
      key_code_to_number KeyCode.Key9 = some 8 ∧
      key_code_to_number KeyCode.Key0 = some 9) ∧
    update svc s
        (Message.EventOccurred (IcedEvent.Keyboard
          (KeyEvent.KeyPressed kc))) =
      ({ s with current_selection := some n }, []) := by
  constructor
  · exact ⟨by decide, rfl, rfl, rfl, rfl, rfl, rfl, rfl, rfl, rfl, rfl⟩
  · cases kc <;> simp_all [update, updateMsg, key_code_to_number]

/-- Witness for C6: pressing key 3 in a visible two-entry state selects
index 2. -/
theorem digit_mapping_bijection_witness :
    ((∀ m : Nat, m < 10 → ∃ k : KeyCode, key_code_to_number k = some m ∧
        ∀ k2 : KeyCode, key_code_to_number k2 = some m → k2 = k) ∧
      key_code_to_number KeyCode.Key1 = some 0 ∧
      key_code_to_number KeyCode.Key2 = some 1 ∧
      key_code_to_number KeyCode.Key3 = some 2 ∧
      key_code_to_number KeyCode.Key4 = some 3 ∧
      key_code_to_number KeyCode.Key5 = some 4 ∧
      key_code_to_number KeyCode.Key6 = some 5 ∧
      key_code_to_number KeyCode.Key7 = some 6 ∧
      key_code_to_number KeyCode.Key8 = some 7 ∧
      key_code_to_number KeyCode.Key9 = some 8 ∧
      key_code_to_number KeyCode.Key0 = some 9) ∧
    update svcAbsent sampleVisible
        (Message.EventOccurred (IcedEvent.Keyboard
          (KeyEvent.KeyPressed KeyCode.Key3))) =
      ({ sampleVisible with current_selection := some 2 }, []) :=
  digit_mapping_bijection svcAbsent sampleVisible KeyCode.Key3 2 rfl rfl

theorem update_hidden_stays_hidden
    (svc : ClipboardService) (s : ClipboardManager) (h : s.visible = false)
    (m : Message) (hm : m ≠ Message.ShowWindow) :
    (update svc s m).fst.visible = false := by
  cases m with
  | ShowWindow => exact absurd rfl hm
  | NumberPressed num => simp [update, updateMsg, h]
  | ClipboardUpdated content => exact h
  | CheckClipboard => exact h
  | ConfirmSelection =>
    cases hc : s.current_selection with
    | none => simp [update, updateMsg, hc, h]
    | some index =>
      cases hg : s.history[index]? with
      | none => simp [update, updateMsg, hc, hg, h]
      | some content => simp [update, updateMsg, hc, hg]
  | Hide => rfl
  | EventOccurred event =>
    cases event with
    | NonKeyboard => exact h
    | Keyboard ke =>
      cases ke with
      | OtherKeyboardEvent => exact h
      | KeyPressed kc => simp [update, h]
  | ClipboardError e => exact h

/-- Claim C7: from the hidden state only a ShowRequested token
(`Message.ShowWindow`) makes the picker visible, and then with selection 0;
every keyboard event received while hidden leaves the whole state
unchanged. -/
theorem hidden_only_show_transitions
    (svc : ClipboardService) (s : ClipboardManager) (h : s.visible = false) :
    (∀ m : Message, (update svc s m).fst.visible = true →
        m = Message.ShowWindow ∧
          (update svc s m).fst.current_selection = some 0) ∧
    (∀ event : IcedEvent,
        update svc s (Message.EventOccurred event) = (s, [])) := by
  constructor
  · intro m hm
    by_cases hsw : m = Message.ShowWindow
    · subst hsw
      exact ⟨rfl, rfl⟩
    · rw [update_hidden_stays_hidden svc s h m hsw] at hm
      exact Bool.noConfusion hm
  · intro event
    cases event with
    | NonKeyboard => rfl
    | Keyboard ke =>
      cases ke with
      | OtherKeyboardEvent => rfl
      | KeyPressed kc => simp [update, h]

/-- Witness for C7: an Enter key press in the initial hidden state is
ignored. -/
theorem hidden_only_show_transitions_witness :
    update svcAbsent initState
        (Message.EventOccurred (IcedEvent.Keyboard
          (KeyEvent.KeyPressed KeyCode.Enter))) = (initState, []) :=
  (hidden_only_show_transitions svcAbsent initState rfl).2
    (IcedEvent.Keyboard (KeyEvent.KeyPressed KeyCode.Enter))

/-- Claim C8: clipboard failures are recovered locally.  A failed read only
re-enters the loop with a `ClipboardError` message, leaving history and
visibility unchanged for the cycle; the `ClipboardError` arm merely reports
the error on the standard error stream and leaves the state untouched; a
failed write during `ConfirmSelection` with a present entry still hides the
picker. -/
theorem clipboard_errors_recovered
    (svc : ClipboardService) (s : ClipboardManager)
    (re we msg content : String) (i : Nat) :
    (svc.present = true → svc.get_text = ClipResult.err re →
      update svc s Message.CheckClipboard =
        ({ s with current_selection := some 0 },
         [Effect.perform (Message.ClipboardError re)])) ∧
    (update svc s (Message.ClipboardError msg) =
      (s, [Effect.logError msg])) ∧
    (svc.present = true → svc.set_text_result = ClipResult.err we →
     s.current_selection = some i → s.history[i]? = some content →
      (update svc s Message.ConfirmSelection).fst.visible = false ∧
      (update svc s Message.ConfirmSelection).snd =
        [Effect.writeText content,
         Effect.perform (Message.ClipboardError we),
         Effect.changeMode WindowMode.Hidden]) := by
  refine ⟨?_, rfl, ?_⟩
  · intro hp hg
    simp [update, updateMsg, check_clipboard, hp, hg]
  · intro hp hw hsel hget
    simp [update, updateMsg, set_clipboard_content, hp, hw, hsel, hget]

/-- Witness for C8: a service whose read and write both fail, on a visible
state with one selected present entry. -/
theorem clipboard_errors_recovered_witness :
    update svcFailing sampleVisible Message.CheckClipboard =
      ({ sampleVisible with current_selection := some 0 },
       [Effect.perform (Message.ClipboardError "read failed")]) ∧
    (update svcFailing sampleVisible Message.ConfirmSelection).fst.visible
        = false ∧
    (update svcFailing sampleVisible Message.ConfirmSelection).snd =
      [Effect.writeText "x",
       Effect.perform (Message.ClipboardError "write failed"),
       Effect.changeMode WindowMode.Hidden] := by
  have h := clipboard_errors_recovered svcFailing sampleVisible
    "read failed" "write failed" "unused" "x" 0
  exact ⟨h.1 rfl rfl, (h.2.2 rfl rfl rfl rfl).1, (h.2.2 rfl rfl rfl rfl).2⟩

/-- Claim C9: a ShowRequested token received while the picker is already
visible with some selection resets the selection to 0, keeps the picker
visible, and reissues the clipboard refresh, focus and show commands. -/
theorem show_while_visible
    (svc : ClipboardService) (s : ClipboardManager) (i : Nat)
    (hv : s.visible = true) (hsel : s.current_selection = some i) :
    (update svc s Message.ShowWindow).fst =
      { s with visible := true, current_selection := some 0 } ∧
    (update svc s Message.ShowWindow).snd =
      check_clipboard svc ++
        [Effect.gainFocus, Effect.changeMode WindowMode.Windowed] :=
  ⟨rfl, rfl⟩

/-- Witness for C9: a ShowRequested token on a visible state with slot 0
selected. -/
theorem show_while_visible_witness :
    (update svcAbsent sampleVisible Message.ShowWindow).fst =
      { sampleVisible with visible := true, current_selection := some 0 } ∧
    (update svcAbsent sampleVisible Message.ShowWindow).snd =
      check_clipboard svcAbsent ++
        [Effect.gainFocus, Effect.changeMode WindowMode.Windowed] :=
  show_while_visible svcAbsent sampleVisible 0 rfl rfl

/-- Claim C10: the funnel consumer decodes every received channel value other
than the sentinel 1 as a show-picker request, not only the 0 the hotkey
producer actually sends; the watcher sentinel 1 decodes to the clipboard
refresh. -/
theorem funnel_decodes_unexpected_as_show (value : Nat) (h : value ≠ 1) :
    decode_funnel_value value = Message.ShowWindow ∧
      decode_funnel_value hotkey_sent_value = Message.ShowWindow ∧
      decode_funnel_value watcher_sent_value = Message.CheckClipboard := by
  refine ⟨?_, rfl, rfl⟩
  simp [decode_funnel_value, h]

/-- Witness for C10: the unexpected channel value 7 still decodes to a
show-picker request. -/
theorem funnel_decodes_unexpected_as_show_witness :
    decode_funnel_value 7 = Message.ShowWindow ∧
      decode_funnel_value hotkey_sent_value = Message.ShowWindow ∧
      decode_funnel_value watcher_sent_value = Message.CheckClipboard :=
  funnel_decodes_unexpected_as_show 7 (by decide)

end Clipzero
